import Mathlib

/-!
Verification of the sparse coordinate-addressed 2-D matrix store
(`Matrix` in `src/sparse/core/sparse.hpp`, pybind adapter in
`src/sparse/core/main.cpp`).

Shallow embedding notes:
* `Key = std::tuple<uint32_t, uint32_t>` is modelled as `Nat × Nat` with an
  explicit reduction `% 2^32` applied where the C++ type system coerces to
  `uint32_t` (function entry of `set`/`get`, the output arrays of the sparse
  range read).  Arithmetic such as `i_ + 1` in `shape` and in the error
  message is unsigned 32-bit, hence carries an explicit `% 2^32`.
* `double` values are modelled by the inductive `Dbl`: the code never does
  floating-point arithmetic on stored values, it only stores them, returns
  them, produces the literal `0`, the quiet-NaN sentinel, and tests
  `std::isnan`.  All of those are captured exactly by `Dbl`.
* `std::unordered_map` is modelled as an association list with unique keys
  (`insertOrAssign` replaces in place); the code never iterates the map, so
  bucket order is unobservable.
* `get` is a `const` method but reads the shared map through
  `(*data_)[_key]`, i.e. the non-const `operator[]` which default-inserts a
  missing key.  To make the frame property a real theorem rather than a
  modelling artifact, `Matrix.get` returns the (possibly updated) state next
  to its result, and `mapBracket` embeds `operator[]` semantics faithfully.
* Errors (`pybind11::index_error`, `std::runtime_error`) are structured as
  the inductive `Err`, carrying the data interpolated into the C++ message
  strings (axis, index, size; the two shapes).
-/

namespace Sparse

/-- The modulus `2^32` of `uint32_t` arithmetic. -/
def U32 : Nat := 4294967296

/-- Model of the C++ `double` as used by this code: a quiet-NaN sentinel or
an ordinary (rational-valued) number.  No arithmetic is ever performed on
stored values, so this carrier is exact for every observable behaviour. -/
inductive Dbl where
  | nan : Dbl
  | fin (q : ℚ) : Dbl
  deriving DecidableEq, Repr

/-- Model of `std::isnan`. -/
def Dbl.isNan : Dbl → Bool
  | .nan => true
  | .fin _ => false

/-- Structured content of the errors thrown by the code: the
`pybind11::index_error` of `Matrix::get` (axis, offending index, reported
size) and the `std::runtime_error` of `__setitem__` (block shape, expected
shape). -/
inductive Err where
  | outOfBounds (axis index size : Nat) : Err
  | shapeMismatch (got expected : Nat × Nat) : Err
  deriving DecidableEq, Repr

/-- Association-list lookup, modelling `unordered_map::count`/`find`. -/
def mapFind : List ((Nat × Nat) × Dbl) → (Nat × Nat) → Option Dbl
  | [], _ => none
  | (k, v) :: rest, key => if k = key then some v else mapFind rest key

/-- Model of `unordered_map::insert_or_assign`: replace the value if the key is
present, otherwise add the entry. -/
def insertOrAssign : List ((Nat × Nat) × Dbl) → (Nat × Nat) → Dbl → List ((Nat × Nat) × Dbl)
  | [], key, v => [(key, v)]
  | (k, w) :: rest, key, v =>
      if k = key then (key, v) :: rest else (k, w) :: insertOrAssign rest key v

/-- Model of the `unordered_map` bracket operator read as an rvalue: returns the stored value,
default-inserting a value-initialized `double` (`0.0`) when absent.  The
possibly grown map is returned alongside. -/
def mapBracket (m : List ((Nat × Nat) × Dbl)) (k : Nat × Nat) :
    Dbl × List ((Nat × Nat) × Dbl) :=
  match mapFind m k with
  | some v => (v, m)
  | none => (Dbl.fin 0, insertOrAssign m k (Dbl.fin 0))

/-- The `Matrix` class state: the coordinate→value map (`data_`), the two
max-seen physical bounds (`i_`, `j_`, both `uint32_t`), and the transpose
orientation flag (`ji_`). -/
structure Matrix where
  data_ : List ((Nat × Nat) × Dbl)
  i_ : Nat
  j_ : Nat
  ji_ : Bool
  deriving DecidableEq, Repr

/-- The `Matrix()` default constructor: empty map, zero bounds, flag unset. -/
def Matrix.empty : Matrix := ⟨[], 0, 0, false⟩

/-- Model of `Matrix::swap_key`. -/
def Matrix.swap_key (k : Nat × Nat) : Nat × Nat := (k.2, k.1)

/-- The `uint32_t` coercion applied to both components of a key at the
typed boundary of `set`/`get`. -/
def normKey (k : Nat × Nat) : Nat × Nat := (k.1 % U32, k.2 % U32)

/-- The translation `ji_ ? Matrix::swap_key(key) : key` from logical to physical,
performed at the top of both `set` and `get`. -/
def Matrix.physKey (s : Matrix) (k : Nat × Nat) : Nat × Nat :=
  if s.ji_ then Matrix.swap_key (normKey k) else normKey k

/-- Model of `Matrix::set`: translate to physical space, raise both max-seen bounds,
insert-or-assign. -/
def Matrix.set (s : Matrix) (k : Nat × Nat) (x : Dbl) : Matrix :=
  { s with
      i_ := max (s.physKey k).1 s.i_
      j_ := max (s.physKey k).2 s.j_
      data_ := insertOrAssign s.data_ (s.physKey k) x }

/-- Model of `Matrix::get`: translate to physical space; if absent, return NaN in
filter mode, else bounds-check against `i_` then `j_`, throwing
`index_error` with the logical axis number, the offending physical index
and the size `bound + 1` (32-bit arithmetic); if present, read through
`operator[]`.  Returns the result together with the (unchanged, see
`get_frame`) state. -/
def Matrix.get (s : Matrix) (k : Nat × Nat) (filter : Bool) :
    Except Err Dbl × Matrix :=
  if mapFind s.data_ (s.physKey k) = none then
    if filter then
      (Except.ok Dbl.nan, s)
    else if (s.physKey k).1 > s.i_ then
      (Except.error
        (Err.outOfBounds (if s.ji_ then 1 else 0) (s.physKey k).1 ((s.i_ + 1) % U32)), s)
    else if (s.physKey k).2 > s.j_ then
      (Except.error
        (Err.outOfBounds (if s.ji_ then 0 else 1) (s.physKey k).2 ((s.j_ + 1) % U32)), s)
    else
      (Except.ok (Dbl.fin 0), s)
  else
    (Except.ok (mapBracket s.data_ (s.physKey k)).1,
     { s with data_ := (mapBracket s.data_ (s.physKey k)).2 })

/-- Model of `Matrix::shape`: it is `(0,0)` on an empty map, else the max-seen bounds plus
one (32-bit arithmetic), swapped when the orientation flag is set. -/
def Matrix.shape (s : Matrix) : Nat × Nat :=
  if s.data_ = [] then (0, 0)
  else if s.ji_ then ((s.j_ + 1) % U32, (s.i_ + 1) % U32)
  else ((s.i_ + 1) % U32, (s.j_ + 1) % U32)

/-- Model of `Matrix::transpose`: flip the orientation flag. -/
def Matrix.transpose (s : Matrix) : Matrix := { s with ji_ := !s.ji_ }

/-- A 2-D numpy block as pybind11 hands it to `__setitem__`: its two shape
components and its row-major element buffer (`_x(ix, jx)` reads offset
`ix * n1 + jx`). -/
structure Arr2 where
  n0 : Nat
  n1 : Nat
  entries : List Dbl
  deriving DecidableEq, Repr

/-- Element access `_x(ix, jx)` on a 2-D block. -/
def Arr2.elem (x : Arr2) (ix jx : Nat) : Dbl :=
  x.entries.getD (ix * x.n1 + jx) Dbl.nan

/-- The `__setitem__` binding lambda after slice resolution: reject the
block unless its shape is exactly `(i_slicelength, j_slicelength)`
(throwing before any mutation), then write every block cell through
`Matrix::set` at the strided coordinates, row-major. -/
def Matrix.setItem (s : Matrix) (i0 istep ilen j0 jstep jlen : Nat)
    (x : Arr2) : Except Err Matrix :=
  if x.n0 ≠ ilen ∨ x.n1 ≠ jlen then
    Except.error (Err.shapeMismatch (x.n0, x.n1) (ilen, jlen))
  else
    Except.ok ((List.range ilen).foldl (fun m ix =>
      (List.range jlen).foldl (fun m2 jx =>
        m2.set (i0 + ix * istep, j0 + jx * jstep) (x.elem ix jx)) m) s)

/-- The sparse-mode `get` binding lambda after slice resolution: probe every
strided coordinate with `get(·, filter=true)`, keep the non-NaN hits in
encounter order as (row, column, value) triples; the row/column outputs are
written into `uint32_t` arrays, hence the `% 2^32`. -/
def Matrix.getRangeSparseTriples (s : Matrix) (i0 istep ilen j0 jstep jlen : Nat) :
    List (Nat × Nat × Dbl) :=
  (List.range ilen).foldl (fun acc ix =>
    (List.range jlen).foldl (fun acc2 jx =>
      if (((s.get (i0 + ix * istep, j0 + jx * jstep) true).1).toOption.getD Dbl.nan).isNan
      then acc2
      else acc2 ++ [((i0 + ix * istep) % U32, (j0 + jx * jstep) % U32,
        ((s.get (i0 + ix * istep, j0 + jx * jstep) true).1).toOption.getD Dbl.nan)]) acc) []

/-- The three output containers of the sparse-mode `get` binding (row
indices, column indices, values), each resized to the number of collected
triples. -/
def Matrix.getRangeSparse (s : Matrix) (i0 istep ilen j0 jstep jlen : Nat) :
    List Nat × List Nat × List Dbl :=
  let t := s.getRangeSparseTriples i0 istep ilen j0 jstep jlen
  (t.map (·.1), t.map (·.2.1), t.map (·.2.2))

/-- The row-major list of loop index pairs `(ix, jx)` iterated by the
slice-range loops of the binding layer. -/
def rmIndexPairs (ilen jlen : Nat) : List (Nat × Nat) :=
  (List.range ilen).flatMap (fun ix => (List.range jlen).map (fun jx => (ix, jx)))

/-- Written from the words of the spec, for comparison with the code
`getRangeSparseTriples`: "the triples (row index, column index, value) of
the entries explicitly stored at iterated coordinates, in row-major order
over the iterated (start, step) sequence". -/
def specStoredTriples (s : Matrix) (i0 istep ilen j0 jstep jlen : Nat) :
    List (Nat × Nat × Dbl) :=
  (rmIndexPairs ilen jlen).filterMap (fun p =>
    (mapFind s.data_ (s.physKey (i0 + p.1 * istep, j0 + p.2 * jstep))).map
      (fun v => ((i0 + p.1 * istep) % U32, (j0 + p.2 * jstep) % U32, v)))

/-- Same observable outcome of two `get` calls: same value on success,
and simultaneous failure (the error payloads legitimately differ in their
axis label, which is reported in logical numbering). -/
def sameOutcome : Except Err Dbl → Except Err Dbl → Prop
  | Except.ok v, Except.ok w => v = w
  | Except.error _, Except.error _ => True
  | _, _ => False

/-- Concrete one-entry matrix used to instantiate hypotheses. -/
def sample1 : Matrix := Matrix.empty.set (0, 0) (Dbl.fin 1)

/-- Matrix holding one entry at the largest representable physical row. -/
def wrapMat : Matrix := Matrix.empty.set (U32 - 1, 0) (Dbl.fin 7)

/-- Matrix in which the value NaN has been explicitly stored at (0,0). -/
def nanMat : Matrix := Matrix.empty.set (0, 0) Dbl.nan

/-- C4: starting from the empty matrix, after `set((2,3), 5.0)`: `shape()`
is `(3,4)`; `get((0,0))` returns the default `0`; `get((2,3))` returns
`5.0`; `get((5,0))` fails out-of-bounds with axis 0, index 5, size 3. -/
theorem scenario_set_2_3 :
    (Matrix.empty.set (2, 3) (Dbl.fin 5)).shape = (3, 4)
    ∧ ((Matrix.empty.set (2, 3) (Dbl.fin 5)).get (0, 0) false).1 = Except.ok (Dbl.fin 0)
    ∧ ((Matrix.empty.set (2, 3) (Dbl.fin 5)).get (2, 3) false).1 = Except.ok (Dbl.fin 5)
    ∧ ((Matrix.empty.set (2, 3) (Dbl.fin 5)).get (5, 0) false).1
        = Except.error (Err.outOfBounds 0 5 3) := by
  refine ⟨?_, ?_, ?_, ?_⟩ <;> rfl

theorem mapFind_insertOrAssign_self (m : List ((Nat × Nat) × Dbl))
    (k : Nat × Nat) (v : Dbl) : mapFind (insertOrAssign m k v) k = some v := by
  induction m with
  | nil => simp [insertOrAssign, mapFind]
  | cons hd tl ih =>
      by_cases h : hd.1 = k
      · simp [insertOrAssign, mapFind, h]
      · simpa [insertOrAssign, mapFind, h] using ih

theorem set_ji (s : Matrix) (k : Nat × Nat) (v : Dbl) : (s.set k v).ji_ = s.ji_ := rfl

theorem physKey_set (s : Matrix) (k c : Nat × Nat) (v : Dbl) :
    (s.set k v).physKey c = s.physKey c := rfl

/-- C9: `get` never mutates the matrix — the map, both bounds and the
orientation flag of the returned state are those of the input state, in
every branch (stored value, default, sentinel, or out-of-bounds failure).
This is a real property of the code: the present-entry branch reads through
the default-inserting map bracket operator, and only the preceding `count`
guard keeps that read from growing the map. -/
theorem get_frame (s : Matrix) (k : Nat × Nat) (f : Bool) : (s.get k f).2 = s := by
  unfold Matrix.get
  cases h : mapFind s.data_ (s.physKey k) with
  | none => simp only [h, if_true, reduceIte]; split_ifs <;> rfl
  | some v => simp [h, mapBracket]

/-- C7: on any coordinate whose (translated) entry is absent from the map,
`get` in filter mode returns the NaN sentinel and never fails, with no
bounds condition at all. -/
theorem get_filter_sentinel (s : Matrix) (k : Nat × Nat)
    (h : mapFind s.data_ (s.physKey k) = none) :
    (s.get k true).1 = Except.ok Dbl.nan := by
  simp [Matrix.get, h]

theorem get_filter_sentinel_witness :
    mapFind sample1.data_ (sample1.physKey (7, 9)) = none
    ∧ (sample1.get (7, 9) true).1 = Except.ok Dbl.nan :=
  ⟨by decide, get_filter_sentinel sample1 (7, 9) (by decide)⟩

/-- C6: `set` is total (it is a plain state transformer with no error
outcome), and reading back a coordinate just written returns that value in
either filter mode; in particular a second `set` on the same coordinate
overwrites the first (last write wins), whatever the prior state — even
when the coordinate lay outside the current shape. -/
theorem set_then_get (s : Matrix) (c : Nat × Nat) (v w : Dbl) (f : Bool) :
    ((s.set c v).get c f).1 = Except.ok v
    ∧ (((s.set c w).set c v).get c f).1 = Except.ok v := by
  have main : ∀ t : Matrix, ((t.set c v).get c f).1 = Except.ok v := by
    intro t
    have h : mapFind (t.set c v).data_ ((t.set c v).physKey c) = some v := by
      rw [physKey_set]
      exact mapFind_insertOrAssign_self _ _ _
    simp [Matrix.get, h, mapBracket]
  exact ⟨main s, main (s.set c w)⟩

theorem insertOrAssign_ne_nil (m : List ((Nat × Nat) × Dbl)) (k : Nat × Nat)
    (v : Dbl) : insertOrAssign m k v ≠ [] := by
  cases m with
  | nil => simp [insertOrAssign]
  | cons hd tl =>
      obtain ⟨k0, w0⟩ := hd
      by_cases h : k0 = k <;> simp [insertOrAssign, h]

theorem get_present (s : Matrix) (k : Nat × Nat) (v : Dbl) (f : Bool)
    (h : mapFind s.data_ (s.physKey k) = some v) :
    (s.get k f).1 = Except.ok v := by
  simp [Matrix.get, h, mapBracket]

theorem get_absent_eq (s : Matrix) (k : Nat × Nat)
    (h : mapFind s.data_ (s.physKey k) = none) :
    (s.get k false).1 =
      if (s.physKey k).1 > s.i_ then
        Except.error
          (Err.outOfBounds (if s.ji_ then 1 else 0) (s.physKey k).1 ((s.i_ + 1) % U32))
      else if (s.physKey k).2 > s.j_ then
        Except.error
          (Err.outOfBounds (if s.ji_ then 0 else 1) (s.physKey k).2 ((s.j_ + 1) % U32))
      else Except.ok (Dbl.fin 0) := by
  simp only [Matrix.get, h, if_true, Bool.false_eq_true, if_false]
  split_ifs <;> rfl

theorem shape_transpose (s : Matrix) :
    s.transpose.shape = ((s.shape).2, (s.shape).1) := by
  cases hj : s.ji_ <;> by_cases hd : s.data_ = [] <;>
    simp [Matrix.shape, Matrix.transpose, hj, hd]

theorem physKey_transpose (s : Matrix) (a b : Nat) :
    s.transpose.physKey (a, b) = s.physKey (b, a) := by
  cases hj : s.ji_ <;>
    simp [Matrix.physKey, Matrix.transpose, Matrix.swap_key, normKey, hj]

/-- C5: after `transpose()` the shape is the old shape with components
swapped; `get((a,b))` after `transpose()` has the same outcome (same value,
or failure exactly when the other fails) as `get((b,a))` before; and
`transpose()` twice is the identity on the whole state, so every later
observation is restored. -/
theorem transpose_spec (s : Matrix) (a b : Nat) (f : Bool) :
    s.transpose.shape = ((s.shape).2, (s.shape).1)
    ∧ sameOutcome ((s.transpose.get (a, b) f).1) ((s.get (b, a) f).1)
    ∧ s.transpose.transpose = s := by
  refine ⟨shape_transpose s, ?_, ?_⟩
  · have hk : s.transpose.physKey (a, b) = s.physKey (b, a) := physKey_transpose s a b
    have hd : s.transpose.data_ = s.data_ := rfl
    have hi : s.transpose.i_ = s.i_ := rfl
    have hj : s.transpose.j_ = s.j_ := rfl
    unfold Matrix.get
    rw [hk, hd, hi, hj]
    cases h : mapFind s.data_ (s.physKey (b, a)) with
    | some v => simp [h, mapBracket, sameOutcome]
    | none =>
        cases f with
        | true => simp [h, sameOutcome]
        | false =>
            simp only [h, if_true, reduceIte]
            split_ifs <;> simp [sameOutcome]
  · cases s with
    | mk d i j ji => simp [Matrix.transpose]

/-- C1 counterexample: on the empty matrix the current logical shape is
`(0, 0)`, so the coordinate `(0, 0)` has row `0 ≥ 0` = row extent; the
claim then demands an OutOfBounds failure, but `get((0,0), filter=false)`
returns the default `0` (the code checks against `max-seen + 1 = 1`, not
against the reported shape `0`). -/
theorem get_oob_iff_counterexample :
    Matrix.empty.shape = (0, 0)
    ∧ (Matrix.empty.get (0, 0) false).1 = Except.ok (Dbl.fin 0) :=
  ⟨rfl, rfl⟩

/-- C1 (amended): for a NON-EMPTY matrix whose max-seen bounds are below
the `uint32` wrap, `get` with `filter = false` on an absent coordinate
fails if and only if the row is `≥` the logical row extent or the column is
`≥` the logical column extent; the failure carries the offending axis in
logical numbering, the offending index, and the extent on that axis; when
both components are within the logical shape it returns the default `0`. -/
theorem get_oob_iff (s : Matrix) (r c : Nat) (hr : r < U32) (hc : c < U32)
    (habs : mapFind s.data_ (s.physKey (r, c)) = none)
    (hne : s.data_ ≠ [])
    (hiw : s.i_ + 1 < U32) (hjw : s.j_ + 1 < U32) :
    ((r < (s.shape).1 ∧ c < (s.shape).2) →
        (s.get (r, c) false).1 = Except.ok (Dbl.fin 0))
    ∧ (((s.shape).1 ≤ r ∨ (s.shape).2 ≤ c) →
        ((s.shape).1 ≤ r
            ∧ (s.get (r, c) false).1 = Except.error (Err.outOfBounds 0 r ((s.shape).1)))
        ∨ ((s.shape).2 ≤ c
            ∧ (s.get (r, c) false).1 = Except.error (Err.outOfBounds 1 c ((s.shape).2)))) := by
  have hr' : r % U32 = r := Nat.mod_eq_of_lt hr
  have hc' : c % U32 = c := Nat.mod_eq_of_lt hc
  have hI : (s.i_ + 1) % U32 = s.i_ + 1 := Nat.mod_eq_of_lt hiw
  have hJ : (s.j_ + 1) % U32 = s.j_ + 1 := Nat.mod_eq_of_lt hjw
  have hget := get_absent_eq s (r, c) habs
  cases hji : s.ji_ with
  | false =>
      have hpk : s.physKey (r, c) = (r, c) := by
        simp [Matrix.physKey, hji, normKey, hr', hc']
      have hs : s.shape = (s.i_ + 1, s.j_ + 1) := by
        simp [Matrix.shape, hne, hji, hI, hJ]
      simp only [hpk, hji, hI, hJ, Bool.false_eq_true, if_false, gt_iff_lt] at hget
      simp only [hs]
      constructor
      · rintro ⟨h1, h2⟩
        rw [hget, if_neg (by omega), if_neg (by omega)]
      · intro hout
        by_cases hri : s.i_ + 1 ≤ r
        · exact Or.inl ⟨hri, by rw [hget, if_pos (by omega)]⟩
        · rcases hout with h | h
          · exact absurd h hri
          · exact Or.inr ⟨h, by rw [hget, if_neg (by omega), if_pos (by omega)]⟩
  | true =>
      have hpk : s.physKey (r, c) = (c, r) := by
        simp [Matrix.physKey, hji, Matrix.swap_key, normKey, hr', hc']
      have hs : s.shape = (s.j_ + 1, s.i_ + 1) := by
        simp [Matrix.shape, hne, hji, hI, hJ]
      simp only [hpk, hji, hI, hJ, if_true, gt_iff_lt] at hget
      simp only [hs]
      constructor
      · rintro ⟨h1, h2⟩
        rw [hget, if_neg (by omega), if_neg (by omega)]
      · intro hout
        by_cases hci : s.i_ + 1 ≤ c
        · exact Or.inr ⟨hci, by rw [hget, if_pos (by omega)]⟩
        · rcases hout with h | h
          · exact Or.inl ⟨h, by rw [hget, if_neg (by omega), if_pos (by omega)]⟩
          · exact absurd h hci

theorem get_oob_iff_witness :
    ((sample1.shape).1 ≤ 2
        ∧ (sample1.get (2, 0) false).1
            = Except.error (Err.outOfBounds 0 2 ((sample1.shape).1)))
    ∨ ((sample1.shape).2 ≤ 0
        ∧ (sample1.get (2, 0) false).1
            = Except.error (Err.outOfBounds 1 0 ((sample1.shape).2))) :=
  (get_oob_iff sample1 2 0 (by decide) (by decide) (by decide) (by decide)
      (by decide) (by decide)).2 (Or.inl (by decide))

/-- C3 counterexample: after `set((2,3), 5.0)` the shape is `(3, 4)`;
calling `transpose()` — one of the listed interface operations — makes the
next `shape()` report `(4, 3)`, whose second component `3` is smaller than
the earlier `4`. -/
theorem shape_mono_counterexample :
    (Matrix.empty.set (2, 3) (Dbl.fin 5)).shape = (3, 4)
    ∧ ((Matrix.empty.set (2, 3) (Dbl.fin 5)).transpose).shape = (4, 3) :=
  ⟨rfl, rfl⟩

/-- C3 (amended): the physical max-seen bounds never decrease: `set` only
raises them and `transpose` preserves them, merely swapping the reported
shape components (so the multiset of shape components never loses ground);
`shape()` itself is componentwise non-decreasing under `set` (hence under
range write, which is a sequence of `set`s) as long as the bounds stay
below the `uint32` wrap.  Only `transpose` can make an individual
component smaller, by swapping the two. -/
theorem shape_mono (s : Matrix) (c : Nat × Nat) (v : Dbl)
    (hiw : (s.set c v).i_ + 1 < U32) (hjw : (s.set c v).j_ + 1 < U32) :
    s.i_ ≤ (s.set c v).i_ ∧ s.j_ ≤ (s.set c v).j_
    ∧ (s.transpose).i_ = s.i_ ∧ (s.transpose).j_ = s.j_
    ∧ s.transpose.shape = ((s.shape).2, (s.shape).1)
    ∧ (s.shape).1 ≤ ((s.set c v).shape).1
    ∧ (s.shape).2 ≤ ((s.set c v).shape).2 := by
  have h1 : s.i_ ≤ (s.set c v).i_ := by simp [Matrix.set]
  have h2 : s.j_ ≤ (s.set c v).j_ := by simp [Matrix.set]
  have hne' : (s.set c v).data_ ≠ [] := insertOrAssign_ne_nil _ _ _
  have hsj : (s.set c v).ji_ = s.ji_ := rfl
  refine ⟨h1, h2, rfl, rfl, shape_transpose s, ?_, ?_⟩
  all_goals
    by_cases hd : s.data_ = []
  · simp [Matrix.shape, hd]
  · cases hji : s.ji_
    · have hs1 : (s.shape).1 = (s.i_ + 1) % U32 := by simp [Matrix.shape, hd, hji]
      have hs2 : ((s.set c v).shape).1 = (s.set c v).i_ + 1 := by
        simp [Matrix.shape, hne', hsj, hji, Nat.mod_eq_of_lt hiw]
      rw [hs1, hs2]
      exact le_trans (Nat.mod_le _ _) (by omega)
    · have hs1 : (s.shape).1 = (s.j_ + 1) % U32 := by simp [Matrix.shape, hd, hji]
      have hs2 : ((s.set c v).shape).1 = (s.set c v).j_ + 1 := by
        simp [Matrix.shape, hne', hsj, hji, Nat.mod_eq_of_lt hjw]
      rw [hs1, hs2]
      exact le_trans (Nat.mod_le _ _) (by omega)
  · simp [Matrix.shape, hd]
  · cases hji : s.ji_
    · have hs1 : (s.shape).2 = (s.j_ + 1) % U32 := by simp [Matrix.shape, hd, hji]
      have hs2 : ((s.set c v).shape).2 = (s.set c v).j_ + 1 := by
        simp [Matrix.shape, hne', hsj, hji, Nat.mod_eq_of_lt hjw]
      rw [hs1, hs2]
      exact le_trans (Nat.mod_le _ _) (by omega)
    · have hs1 : (s.shape).2 = (s.i_ + 1) % U32 := by simp [Matrix.shape, hd, hji]
      have hs2 : ((s.set c v).shape).2 = (s.set c v).i_ + 1 := by
        simp [Matrix.shape, hne', hsj, hji, Nat.mod_eq_of_lt hiw]
      rw [hs1, hs2]
      exact le_trans (Nat.mod_le _ _) (by omega)

theorem shape_mono_witness :
    Matrix.empty.i_ ≤ (Matrix.empty.set (2, 3) (Dbl.fin 5)).i_
    ∧ Matrix.empty.j_ ≤ (Matrix.empty.set (2, 3) (Dbl.fin 5)).j_
    ∧ (Matrix.empty.transpose).i_ = Matrix.empty.i_
    ∧ (Matrix.empty.transpose).j_ = Matrix.empty.j_
    ∧ Matrix.empty.transpose.shape
        = ((Matrix.empty.shape).2, (Matrix.empty.shape).1)
    ∧ (Matrix.empty.shape).1 ≤ ((Matrix.empty.set (2, 3) (Dbl.fin 5)).shape).1
    ∧ (Matrix.empty.shape).2 ≤ ((Matrix.empty.set (2, 3) (Dbl.fin 5)).shape).2 :=
  shape_mono Matrix.empty (2, 3) (Dbl.fin 5) (by decide) (by decide)

/-- C10: coordinates are 32-bit; after `set` at physical row `2^32 - 1` the
reported row extent `max-seen + 1` wraps to `0` (both in `shape()` and in
the size expression the error message would interpolate).  Consequently no
OutOfBounds can ever be raised on that axis — every representable index is
within the max-seen bound — so the wrapped size `0` never actually appears
in a message: every subsequent `get` on this matrix either succeeds or
fails on the other axis, as the exhaustive characterisation below shows. -/
theorem u32_wrap (r c : Nat) :
    wrapMat.shape = (0, 1)
    ∧ (wrapMat.i_ + 1) % U32 = 0
    ∧ (wrapMat.get (r, c) false).1 =
        (if (U32 - 1, 0) = (r % U32, c % U32) then Except.ok (Dbl.fin 7)
         else if c % U32 = 0 then Except.ok (Dbl.fin 0)
         else Except.error (Err.outOfBounds 1 (c % U32) 1)) := by
  have hji : wrapMat.ji_ = false := rfl
  have hdata : wrapMat.data_ = [((U32 - 1, 0), Dbl.fin 7)] := rfl
  have hi : wrapMat.i_ = U32 - 1 := rfl
  have hj : wrapMat.j_ = 0 := rfl
  have hpk : wrapMat.physKey (r, c) = (r % U32, c % U32) := by
    simp [Matrix.physKey, hji, normKey]
  refine ⟨by decide, by decide, ?_⟩
  by_cases h : (U32 - 1, 0) = (r % U32, c % U32)
  · have hfind : mapFind wrapMat.data_ (wrapMat.physKey (r, c))
        = some (Dbl.fin 7) := by
      rw [hdata, hpk]
      simp [mapFind, h]
    rw [get_present wrapMat (r, c) (Dbl.fin 7) false hfind, if_pos h]
  · have hfind : mapFind wrapMat.data_ (wrapMat.physKey (r, c)) = none := by
      rw [hdata, hpk]
      simp [mapFind, h]
    have hget := get_absent_eq wrapMat (r, c) hfind
    simp only [hpk, hji, Bool.false_eq_true, if_false] at hget
    rw [hget, if_neg h]
    have hrlt : r % U32 < U32 := Nat.mod_lt _ (by decide)
    have hnr : ¬ (r % U32 > wrapMat.i_) := by rw [hi]; omega
    rw [if_neg hnr]
    by_cases hc0 : c % U32 = 0
    · have hnc : ¬ (c % U32 > wrapMat.j_) := by rw [hj]; omega
      rw [if_neg hnc, if_pos hc0]
    · have hcp : c % U32 > wrapMat.j_ := by rw [hj]; omega
      rw [if_pos hcp, if_neg hc0, hj]
      norm_num [U32]

theorem foldl_flatMap {α β γ : Type} (l : List α) (f : α → List β)
    (g : γ → β → γ) (init : γ) :
    (l.flatMap f).foldl g init = l.foldl (fun acc a => (f a).foldl g acc) init := by
  induction l generalizing init with
  | nil => rfl
  | cons hd tl ih => simp [List.foldl_append, ih]

theorem foldl_if_append {α β : Type} (l : List α) (q : α → Bool) (f : α → β)
    (acc : List β) :
    l.foldl (fun a b => if q b then a else a ++ [f b]) acc
      = acc ++ l.filterMap (fun b => if q b then none else some (f b)) := by
  induction l generalizing acc with
  | nil => simp
  | cons hd tl ih => by_cases h : q hd <;> simp [h, ih]

theorem foldl_append_flat {α β : Type} (l : List α) (F : α → List β)
    (acc : List β) :
    l.foldl (fun a b => a ++ F b) acc = acc ++ l.flatMap F := by
  induction l generalizing acc with
  | nil => simp
  | cons hd tl ih => simp [ih]

theorem filterMap_rmIndexPairs {β : Type} (ilen jlen : Nat)
    (g : Nat × Nat → Option β) :
    (rmIndexPairs ilen jlen).filterMap g
      = (List.range ilen).flatMap
          (fun ix => (List.range jlen).filterMap (fun jx => g (ix, jx))) := by
  unfold rmIndexPairs
  generalize List.range ilen = l
  induction l with
  | nil => simp
  | cons hd tl ih =>
      simp [List.filterMap_append, List.filterMap_map, ih]
      rfl

/-- C8: the range write validates the block shape against the two resolved
slice lengths before touching any cell: on a mismatch it fails with the
shape-mismatch error naming the offending shapes and produces no new state;
on a match it writes every block cell through `set` at the corresponding
strided coordinate, in row-major order. -/
theorem setItem_spec (s : Matrix) (i0 istep ilen j0 jstep jlen : Nat)
    (x : Arr2) :
    s.setItem i0 istep ilen j0 jstep jlen x =
      (if x.n0 = ilen ∧ x.n1 = jlen then
        Except.ok ((rmIndexPairs ilen jlen).foldl
          (fun m p => m.set (i0 + p.1 * istep, j0 + p.2 * jstep) (x.elem p.1 p.2)) s)
      else Except.error (Err.shapeMismatch (x.n0, x.n1) (ilen, jlen))) := by
  by_cases h : x.n0 = ilen ∧ x.n1 = jlen
  · rw [if_pos h]
    unfold Matrix.setItem
    rw [if_neg (by simp [h.1, h.2])]
    congr 1
    rw [rmIndexPairs, foldl_flatMap]
    simp [List.foldl_map]
  · rw [if_neg h]
    unfold Matrix.setItem
    rw [if_pos (not_and_or.mp h)]

theorem sparse_probe_eq (s : Matrix) (a b : Nat) :
    (if (((s.get (a, b) true).1).toOption.getD Dbl.nan).isNan = true then none
     else some (a % U32, b % U32, ((s.get (a, b) true).1).toOption.getD Dbl.nan))
      = (match mapFind s.data_ (s.physKey (a, b)) with
         | some v => if v.isNan then none else some (a % U32, b % U32, v)
         | none => none) := by
  cases h : mapFind s.data_ (s.physKey (a, b)) with
  | none =>
      have hg : (s.get (a, b) true).1 = Except.ok Dbl.nan := by
        simp [Matrix.get, h]
      simp [hg, Except.toOption, Dbl.isNan]
  | some v =>
      have hg : (s.get (a, b) true).1 = Except.ok v := get_present s (a, b) v true h
      cases v <;> simp [hg, Except.toOption, Dbl.isNan]

/-- C2 counterexample: NaN can be explicitly stored (`set` accepts any
value); `nanMat` stores NaN at (0,0), which lies at an iterated coordinate
of the slice pair (0,1,1)×(0,1,1), yet the sparse-mode range read returns
no triple at all, while the claim wording "exactly the triples of the entries
explicitly stored at iterated coordinates" (formalised verbatim as
`specStoredTriples`) demands the one stored triple. -/
theorem sparse_range_counterexample :
    nanMat.getRangeSparseTriples 0 1 1 0 1 1 = []
    ∧ specStoredTriples nanMat 0 1 1 0 1 1 = [(0, 0, Dbl.nan)] :=
  ⟨rfl, rfl⟩

/-- C2 (amended): the sparse-mode range read returns exactly the triples of
the entries explicitly stored WITH A NON-NaN VALUE at iterated coordinates
(equivalently: those whose filter-mode probe is not the NaN sentinel), in
row-major order over the iterated (start, step) sequence, and each of the
three output containers has length exactly the number k of triples
returned. -/
theorem sparse_range_spec (s : Matrix) (i0 istep ilen j0 jstep jlen : Nat) :
    s.getRangeSparseTriples i0 istep ilen j0 jstep jlen
      = (rmIndexPairs ilen jlen).filterMap (fun p =>
          match mapFind s.data_ (s.physKey (i0 + p.1 * istep, j0 + p.2 * jstep)) with
          | some v => if v.isNan then none
              else some ((i0 + p.1 * istep) % U32, (j0 + p.2 * jstep) % U32, v)
          | none => none)
    ∧ (s.getRangeSparse i0 istep ilen j0 jstep jlen).1.length
        = (s.getRangeSparseTriples i0 istep ilen j0 jstep jlen).length
    ∧ (s.getRangeSparse i0 istep ilen j0 jstep jlen).2.1.length
        = (s.getRangeSparseTriples i0 istep ilen j0 jstep jlen).length
    ∧ (s.getRangeSparse i0 istep ilen j0 jstep jlen).2.2.length
        = (s.getRangeSparseTriples i0 istep ilen j0 jstep jlen).length := by
  refine ⟨?_, by simp [Matrix.getRangeSparse], by simp [Matrix.getRangeSparse],
    by simp [Matrix.getRangeSparse]⟩
  rw [filterMap_rmIndexPairs]
  unfold Matrix.getRangeSparseTriples
  simp only [foldl_if_append]
  rw [foldl_append_flat]
  simp only [List.nil_append, sparse_probe_eq]

end Sparse
